import Mathlib

deriving instance DecidableEq for Except

/-!
Verification of the statediff state-decoder and marshaler.

The Go sources are shallowly embedded:
* Go strings are byte strings; where only the character content matters
  (type paths fed to `ResolveType`) we model them as `List Char` wrapped in
  `String`; where the raw bytes matter (HAMT keys, block payloads) we model
  them as `List Nat`.
* External collaborators (block store, HAMT/AMT/Multimap/Set loaders, the
  dagcbor decoder, the go-address and go-bitfield libraries) are fields of
  explicit environment records, as the spec treats them as interfaces.
* Fallible Go functions return `Except Err α`.
* The regex replacement passes are interpreters of the two concrete patterns
  with Go's leftmost non-overlapping `ReplaceAll` semantics, written with a
  structural fuel parameter (one character consumed per step, so
  `s.length` fuel always suffices) to keep them kernel-computable.
-/

namespace Statediff

theorem length_dropWhile_le (p : Char → Bool) (l : List Char) :
    (l.dropWhile p).length ≤ l.length := by
  induction l with
  | nil => simp [List.dropWhile]
  | cons a as ih =>
    simp only [List.dropWhile, List.length_cons]
    split
    · exact Nat.le_succ_of_le ih
    · simp

/-! ## Type path resolution (`ResolveType`, part_003 and part_002) -/

/-- `strings.ReplaceAll(as, "/", ".")` from `ResolveType` (part_003 only). -/
def slashToDot (s : List Char) : List Char :=
  s.map (fun c => if c = '/' then '.' else c)

/-- Fuel-indexed scan for `simplifyingRe.ReplaceAll([]byte(as), []byte(""))`,
the leftmost non-overlapping replacement of `\[\d+\]` by the empty string:
at a `[`, a maximal nonempty digit run followed immediately by `]` is deleted
and scanning resumes after the `]`. -/
def stripBracketsGo : Nat → List Char → List Char
  | _, [] => []
  | 0, s => s
  | fuel + 1, c :: rest =>
    if c = '[' then
      let ds := rest.takeWhile Char.isDigit
      let rest' := rest.dropWhile Char.isDigit
      if ds ≠ [] ∧ rest'.head? = some ']' then
        stripBracketsGo fuel rest'.tail
      else
        c :: stripBracketsGo fuel rest
    else
      c :: stripBracketsGo fuel rest

def stripBrackets (s : List Char) : List Char :=
  stripBracketsGo s.length s

/-- Does the string contain a `\[\d+\]` match that `stripBrackets` would act
on?  Mirrors the scan of `stripBracketsGo`. -/
def hasBracketNum : List Char → Bool
  | [] => false
  | c :: rest =>
    if c = '[' then
      if rest.takeWhile Char.isDigit ≠ [] ∧
          (rest.dropWhile Char.isDigit).head? = some ']' then true
      else hasBracketNum rest
    else hasBracketNum rest

/-- Fuel-indexed scan for `simplifyingRe2.ReplaceAll(..., []byte("."))`, the
leftmost non-overlapping replacement of `\.\d+\.` by `"."`: a `.`, a maximal
nonempty digit run and a closing `.` are replaced by a single `.`; scanning
resumes after the match, so the emitted `.` is never rescanned. -/
def collapseDotNumGo : Nat → List Char → List Char
  | _, [] => []
  | 0, s => s
  | fuel + 1, c :: rest =>
    if c = '.' then
      let ds := rest.takeWhile Char.isDigit
      let rest' := rest.dropWhile Char.isDigit
      if ds ≠ [] ∧ rest'.head? = some '.' then
        '.' :: collapseDotNumGo fuel rest'.tail
      else
        c :: collapseDotNumGo fuel rest
    else
      c :: collapseDotNumGo fuel rest

def collapseDotNum (s : List Char) : List Char :=
  collapseDotNumGo s.length s

/-- Does the string contain a `\.\d+\.` match that `collapseDotNum` would act
on? -/
def hasDotNumDot : List Char → Bool
  | [] => false
  | c :: rest =>
    if c = '.' then
      if rest.takeWhile Char.isDigit ≠ [] ∧
          (rest.dropWhile Char.isDigit).head? = some '.' then true
      else hasDotNumDot rest
    else hasDotNumDot rest

/-- `LotusTypeAliases` of part_003 (six entries). -/
def lotusTypeAliases : List (String × String) :=
  [ ("tipset.ParentStateRoot", "stateRoot"),
    ("initActor.AddressMap", "initActorAddresses"),
    ("storagePowerActor.CronEventQueue", "storagePowerCronEventQueue"),
    ("storagePowerActor.Claims", "storagePowerClaims"),
    ("storageMinerActor.Deadlines.Due.ExpirationEpochs",
      "storageMinerActor.Deadlines.Due.ExpirationsEpochs"),
    ("storageMinerActor.Deadlines.Due.Partitions.ExpirationEpochs",
      "storageMinerActor.Deadlines.Due.Partitions.ExpirationsEpochs") ]

/-- `LotusTypeAliases` of part_002 (four entries). -/
def lotusTypeAliasesV2 : List (String × String) :=
  [ ("tipset.ParentStateRoot", "stateRoot"),
    ("initActor.AddressMap", "initActorAddresses"),
    ("storagePowerActor.CronEventQueue", "storagePowerCronEventQueue"),
    ("storagePowerActor.Claims", "storagePowerClaims") ]

def aliasSubst (table : List (String × String)) (s : String) : String :=
  match table.lookup s with
  | some v => v
  | none => s

/-- The normalization pipeline inside part_003's `ResolveType`, before alias
substitution: `/`→`.`, strip `[\d+]`, collapse `.\d+.` to `.`. -/
def normalizePath (s : String) : String :=
  ⟨collapseDotNum (stripBrackets (slashToDot s.data))⟩

/-- `ResolveType` of part_003: normalize separators, strip bracketed indices,
collapse delimiter-number-delimiter, then substitute from the alias table. -/
def ResolveType (s : String) : String :=
  aliasSubst lotusTypeAliases (normalizePath s)

/-- `ResolveType` of part_002: same but with no `/` normalization and the
four-entry alias table. -/
def ResolveTypeV2 (s : String) : String :=
  aliasSubst lotusTypeAliasesV2 ⟨collapseDotNum (stripBrackets s.data)⟩

example : ResolveType "tipset/ParentStateRoot" = "stateRoot" := by decide
example : ResolveType "storageMinerActor.Deadlines.Due[3].Partitions" =
    "storageMinerActor.Deadlines.Due.Partitions" := by decide
example : ResolveType "a.1.2.b" = "a.2.b" := by decide
example : ResolveType "a.2.b" = "a.b" := by decide

/-! ### Facts about the normalization passes -/

theorem stripBracketsGo_of_no_match :
    ∀ (fuel : Nat) (s : List Char), hasBracketNum s = false →
      stripBracketsGo fuel s = s := by
  intro fuel
  induction fuel with
  | zero => intro s _; cases s <;> rfl
  | succ n ih =>
    intro s h
    match s with
    | [] => rfl
    | c :: rest =>
      rw [hasBracketNum] at h
      rw [stripBracketsGo]
      by_cases hc : c = '['
      · rw [if_pos hc] at h
        simp only [hc, if_true]
        split
        · rename_i hm
          rw [if_pos hm] at h
          exact absurd h (by simp)
        · rename_i hm
          rw [if_neg hm] at h
          rw [ih rest h]
      · rw [if_neg hc] at h ⊢
        rw [ih rest h]

theorem collapseDotNumGo_of_no_match :
    ∀ (fuel : Nat) (s : List Char), hasDotNumDot s = false →
      collapseDotNumGo fuel s = s := by
  intro fuel
  induction fuel with
  | zero => intro s _; cases s <;> rfl
  | succ n ih =>
    intro s h
    match s with
    | [] => rfl
    | c :: rest =>
      rw [hasDotNumDot] at h
      rw [collapseDotNumGo]
      by_cases hc : c = '.'
      · rw [if_pos hc] at h
        simp only [hc, if_true]
        split
        · rename_i hm
          rw [if_pos hm] at h
          exact absurd h (by simp)
        · rename_i hm
          rw [if_neg hm] at h
          rw [ih rest h]
      · rw [if_neg hc] at h ⊢
        rw [ih rest h]

theorem mem_stripBracketsGo :
    ∀ (fuel : Nat) (s : List Char) (c : Char),
      c ∈ stripBracketsGo fuel s → c ∈ s := by
  intro fuel
  induction fuel with
  | zero =>
    intro s c h
    cases s
    · simp [stripBracketsGo] at h
    · exact h
  | succ n ih =>
    intro s c h
    match s with
    | [] => simp [stripBracketsGo] at h
    | a :: rest =>
      rw [stripBracketsGo] at h
      split at h
      · dsimp only at h
        split at h
        · have h1 : c ∈ (rest.dropWhile Char.isDigit).tail := ih _ c h
          have h2 : c ∈ rest.dropWhile Char.isDigit := List.mem_of_mem_tail h1
          have h3 : c ∈ rest := (List.dropWhile_sublist Char.isDigit).mem h2
          exact List.mem_cons_of_mem a h3
        · rcases List.mem_cons.mp h with h' | h'
          · exact h' ▸ List.mem_cons_self a rest
          · exact List.mem_cons_of_mem a (ih rest c h')
      · rcases List.mem_cons.mp h with h' | h'
        · exact h' ▸ List.mem_cons_self a rest
        · exact List.mem_cons_of_mem a (ih rest c h')

theorem mem_collapseDotNumGo :
    ∀ (fuel : Nat) (s : List Char) (c : Char),
      c ∈ collapseDotNumGo fuel s → c ∈ s ∨ c = '.' := by
  intro fuel
  induction fuel with
  | zero =>
    intro s c h
    cases s
    · simp [collapseDotNumGo] at h
    · exact Or.inl (by simpa [collapseDotNumGo] using h)
  | succ n ih =>
    intro s c h
    match s with
    | [] => simp [collapseDotNumGo] at h
    | a :: rest =>
      rw [collapseDotNumGo] at h
      split at h
      · dsimp only at h
        split at h
        · rcases List.mem_cons.mp h with h' | h'
          · exact Or.inr h'
          · rcases ih _ c h' with h'' | h''
            · have h2 : c ∈ rest.dropWhile Char.isDigit := List.mem_of_mem_tail h''
              have h3 : c ∈ rest := (List.dropWhile_sublist Char.isDigit).mem h2
              exact Or.inl (List.mem_cons_of_mem a h3)
            · exact Or.inr h''
        · rcases List.mem_cons.mp h with h' | h'
          · exact Or.inl (h' ▸ List.mem_cons_self a rest)
          · rcases ih rest c h' with h'' | h''
            · exact Or.inl (List.mem_cons_of_mem a h'')
            · exact Or.inr h''
      · rcases List.mem_cons.mp h with h' | h'
        · exact Or.inl (h' ▸ List.mem_cons_self a rest)
        · rcases ih rest c h' with h'' | h''
          · exact Or.inl (List.mem_cons_of_mem a h'')
          · exact Or.inr h''

theorem slash_not_mem_slashToDot (s : List Char) : '/' ∉ slashToDot s := by
  intro h
  rcases List.mem_map.mp h with ⟨c, _, hc⟩
  by_cases h' : c = '/' <;> simp [h'] at hc

theorem slashToDot_of_no_slash (s : List Char) (h : '/' ∉ s) :
    slashToDot s = s := by
  induction s with
  | nil => rfl
  | cons a rest ih =>
    have ha : a ≠ '/' := fun e => h (e ▸ List.mem_cons_self a rest)
    have hr : '/' ∉ rest := fun e => h (List.mem_cons_of_mem a e)
    simp only [slashToDot, List.map_cons]
    rw [if_neg ha]
    exact congrArg _ (by simpa [slashToDot] using ih hr)

theorem slash_not_mem_normalizePath (s : String) :
    '/' ∉ (normalizePath s).data := by
  intro h
  have h1 := mem_collapseDotNumGo _ _ _ h
  rcases h1 with h1 | h1
  · exact slash_not_mem_slashToDot s.data (mem_stripBracketsGo _ _ _ h1)
  · exact absurd h1 (by decide)

/-- If a single pass leaves no residual pattern, `normalizePath` is a fixed
point on its own output. -/
theorem normalizePath_fixed (s : String)
    (h1 : hasBracketNum (normalizePath s).data = false)
    (h2 : hasDotNumDot (normalizePath s).data = false) :
    normalizePath (normalizePath s) = normalizePath s := by
  have hs : slashToDot (normalizePath s).data = (normalizePath s).data :=
    slashToDot_of_no_slash _ (slash_not_mem_normalizePath s)
  show String.mk (collapseDotNum (stripBrackets
      (slashToDot (normalizePath s).data))) = normalizePath s
  rw [hs]
  unfold stripBrackets
  rw [stripBracketsGo_of_no_match _ _ h1]
  unfold collapseDotNum
  rw [collapseDotNumGo_of_no_match _ _ h2]

/-- Every value of the part_003 alias table is itself a `ResolveType` fixed
point. -/
theorem aliasValues_fixed (k v : String)
    (h : lotusTypeAliases.lookup k = some v) :
    ResolveType v = v := by
  simp only [lotusTypeAliases, List.lookup] at h
  repeat' split at h
  all_goals first
    | (cases h; decide)
    | (cases h)

/-! ## Shared data model -/

/-- Raw bytes (each entry a byte value). -/
abbrev Bytes := List Nat

/-- A Go string viewed as its raw bytes (HAMT keys are arbitrary byte
strings; `big.Int.SetBytes` reinterprets exactly these bytes). -/
abbrev GoStr := List Nat

/-- A content identifier, opaque to this subsystem. -/
abbrev Cid := Nat

/-- ASCII literal helper: the Go bytes of an ASCII string. -/
def gs (s : String) : GoStr := s.data.map Char.toNat

/-- Decimal rendering of a natural, as Go bytes (`big.Int.String`,
`fmt.Sprintf("%d", ...)` on non-negative values). -/
def natDec (n : Nat) : GoStr := gs (Nat.repr n)

/-- Decimal rendering of an int64, as Go bytes (`fmt.Sprintf("%d", k)`). -/
def intDec (i : Int) : GoStr := gs (Int.repr i)

/-- `big.NewInt(0).SetBytes(b)`: the big-endian unsigned reinterpretation of
a byte string. -/
def fromBytesBE (b : Bytes) : Nat := b.foldl (fun a x => a * 256 + x) 0

example : natDec (fromBytesBE [48, 57]) = gs "12345" := by decide
example : natDec (fromBytesBE []) = gs "0" := by decide

/-- Errors.  Internal messages are distinguished; collaborator errors are
opaque payloads that must be propagated unmodified. -/
inductive Err where
  | unknownType (as : String)
  | nonDeferred
  | absentNode
  | nonCidLink
  | fuelOut
  | external (n : Nat)
deriving DecidableEq, Repr

/-- Domain tag of a string-kinded node (`types.RawAddress`,
`types.CidString`, or untagged). -/
inductive StrTag where
  | plain
  | rawAddress
  | cidString
deriving DecidableEq, Repr

/-- Domain tag of a bytes-kinded node (`types.Address`, `types.BigInt`,
`types.BitField`, or untagged). -/
inductive BytesTag where
  | plain
  | address
  | bigInt
  | bitField
deriving DecidableEq, Repr

/-- The payload of a link-kinded node: a `cidlink.Link` or some other link
implementation. -/
inductive LinkV where
  | cidLink (c : Cid)
  | nonCid
deriving DecidableEq, Repr

/-- A schema-typed node (`ipld.Node`), the tagged union over the
representation kinds, plus the `Invalid`/absent kind.  Map keys are
string-kinded nodes and carry their domain tag. -/
inductive MNode where
  | mmap (entries : List ((StrTag × GoStr) × MNode))
  | mlist (xs : List MNode)
  | mbool (b : Bool)
  | mint (i : Int)
  | mfloat (bits : Nat)
  | mstr (tag : StrTag) (s : GoStr)
  | mbytes (tag : BytesTag) (v : Bytes)
  | mlink (l : LinkV)
  | mnull
  | minvalid
deriving Repr

/-- Effectful map over a list in `Except`, aborting at the first error —
the accumulation discipline of a `ForEach` callback whose error is
propagated. -/
def mapE (f : α → Except Err β) : List α → Except Err (List β)
  | [] => .ok []
  | a :: rest => do
    let b ← f a
    let bs ← mapE f rest
    pure (b :: bs)

/-- The successfully processed prefix of a `ForEach` whose result error is
*discarded* by the caller: iteration stops at the first failing entry and
only the prefix before it reaches the assembler. -/
def takeOkInit : List (Except Err α) → List α
  | [] => []
  | .ok a :: rest => a :: takeOkInit rest
  | .error _ :: _ => []

/-! ## Decoder environment

The recursive state decoder's collaborators (spec §6): the block store, the
HAMT/AMT/Multimap/Map/Set loaders and their iteration primitives, the
dagcbor decoder into a fresh builder of a given element type, the CBOR int
decoder, and `abi.ParseUIntKey`. -/

/-- A HAMT iteration value: the expected `*cbg.Deferred` raw span, or some
other value (the `"unexpected non-cbg.Deferred"` branch). -/
inductive HamtVal where
  | deferred (raw : Bytes)
  | other
deriving Repr

/-- Element types whose builders the decoders instantiate per entry. -/
inductive ElemType where
  | lotusActors
  | minerV0SectorPreCommitOnChainInfo
  | minerV0SectorOnChainInfo
  | minerV0Partition
  | minerV0ExpirationSet
  | powerV0CronEvent
  | powerV0Claim
  | marketV0DealProposal
  | marketV0DealState
  | multisigV0Transaction
  | paychV0LaneState
deriving DecidableEq, Repr

structure Env where
  /-- `blockstore.Get` -/
  store : Cid → Except Err Bytes
  /-- `hamt.LoadNode(..., UseTreeBitWidth(5))` plus its `ForEach`: every
  `(key, value)` pair in native order. -/
  hamtLoad : Cid → Except Err (List (GoStr × HamtVal))
  /-- `adt.AsArray` plus its `ForEach`: every `(int64 index, raw bytes)`. -/
  amtLoad : Cid → Except Err (List (Int × Bytes))
  /-- `adt.AsMultimap` plus `ForAll` and the inner array `ForEach`. -/
  multimapLoad : Cid → Except Err (List (GoStr × List (Int × Bytes)))
  /-- `adt.AsMap` plus its `ForEach` with `cbg.CborCid` values. -/
  mapLoad : Cid → Except Err (List (GoStr × Cid))
  /-- `adt.AsSet` plus its `ForEach` over key strings. -/
  setLoad : Cid → Except Err (List GoStr)
  /-- `dagcbor.Decoder` into a fresh builder of the given element type. -/
  decode : ElemType → Bytes → Except Err MNode
  /-- `cbor.DecodeInto(..., *cbg.CborInt)` -/
  decodeInt : Bytes → Except Err Int
  /-- `abi.ParseUIntKey` -/
  parseUIntKey : GoStr → Except Err Nat

/-! ## Structure decoders (part_003; identical part_002 bodies are noted)

Each models one `transformX(ctx, c, store, assembler)` function: open one map
assembler, iterate the source structure once in native order, fill entries,
finish on success.  The part_002 file contains a second copy of each of
these with identical iteration and error logic (only the assembler is built
locally instead of being passed in); the two files differ only in
`transformStateRoot` and `transformInitActor`, which get separate `V2`
models below. -/

/-- part_003 `transformStateRoot` (HAMT of LotusActors, key passed through,
every error checked). -/
def transformStateRoot (env : Env) (c : Cid) : Except Err MNode := do
  let entries ← env.hamtLoad c
  let es ← mapE (fun e => do
    match e.2 with
    | .deferred raw => do
        let n ← env.decode .lotusActors raw
        pure ((StrTag.plain, e.1), n)
    | .other => throw .nonDeferred) entries
  pure (.mmap es)

/-- part_003 `transformInitActor` (HAMT, key passed through, value decoded
as a CBOR int). -/
def transformInitActor (env : Env) (c : Cid) : Except Err MNode := do
  let entries ← env.hamtLoad c
  let es ← mapE (fun e => do
    match e.2 with
    | .deferred raw => do
        let i ← env.decodeInt raw
        pure ((StrTag.plain, e.1), MNode.mint i)
    | .other => throw .nonDeferred) entries
  pure (.mmap es)

/-- `transformMinerActorPreCommittedSectors` (HAMT, key re-rendered as the
decimal of its big-endian reinterpretation). -/
def transformMinerActorPreCommittedSectors (env : Env) (c : Cid) :
    Except Err MNode := do
  let entries ← env.hamtLoad c
  let es ← mapE (fun e => do
    match e.2 with
    | .deferred raw => do
        let n ← env.decode .minerV0SectorPreCommitOnChainInfo raw
        pure ((StrTag.plain, natDec (fromBytesBE e.1)), n)
    | .other => throw .nonDeferred) entries
  pure (.mmap es)

/-- part_003 `transformMinerActorBitfieldHamt`; identical to part_002's
`transformMinerActorPreCommittedSectorsExpiry` (and its alias
`transformMinerActorDeadlineExpiry`): AMT of raw `CBORBytes` assigned
directly, keys the decimal of the int64 index. -/
def transformMinerActorBitfieldHamt (env : Env) (c : Cid) :
    Except Err MNode := do
  let entries ← env.amtLoad c
  let es ← mapE (fun e =>
    pure ((StrTag.plain, intDec e.1), MNode.mbytes .plain e.2)) entries
  pure (.mmap es)

/-- `transformMinerActorSectors` (AMT of MinerV0SectorOnChainInfo). -/
def transformMinerActorSectors (env : Env) (c : Cid) : Except Err MNode := do
  let entries ← env.amtLoad c
  let es ← mapE (fun e => do
    let n ← env.decode .minerV0SectorOnChainInfo e.2
    pure ((StrTag.plain, intDec e.1), n)) entries
  pure (.mmap es)

/-- `transformMinerActorDeadlinePartitions` (AMT of MinerV0Partition). -/
def transformMinerActorDeadlinePartitions (env : Env) (c : Cid) :
    Except Err MNode := do
  let entries ← env.amtLoad c
  let es ← mapE (fun e => do
    let n ← env.decode .minerV0Partition e.2
    pure ((StrTag.plain, intDec e.1), n)) entries
  pure (.mmap es)

/-- `transformMinerActorDeadlinePartitionExpiry` (AMT of
MinerV0ExpirationSet). -/
def transformMinerActorDeadlinePartitionExpiry (env : Env) (c : Cid) :
    Except Err MNode := do
  let entries ← env.amtLoad c
  let es ← mapE (fun e => do
    let n ← env.decode .minerV0ExpirationSet e.2
    pure ((StrTag.plain, intDec e.1), n)) entries
  pure (.mmap es)

/-- `transformPowerActorEventQueue` (multimap: outer key re-rendered as the
decimal big-endian reinterpretation; inner map keyed by the decimal inner
array index; every error checked, both assemblers finished on success). -/
def transformPowerActorEventQueue (env : Env) (c : Cid) :
    Except Err MNode := do
  let outer ← env.multimapLoad c
  let es ← mapE (fun e => do
    let inner ← mapE (fun ie => do
      let n ← env.decode .powerV0CronEvent ie.2
      pure ((StrTag.plain, intDec ie.1), n)) e.2
    pure ((StrTag.plain, natDec (fromBytesBE e.1)), MNode.mmap inner)) outer
  pure (.mmap es)

/-- `transformPowerActorClaims` (HAMT of PowerV0Claim, key passed
through). -/
def transformPowerActorClaims (env : Env) (c : Cid) : Except Err MNode := do
  let entries ← env.hamtLoad c
  let es ← mapE (fun e => do
    match e.2 with
    | .deferred raw => do
        let n ← env.decode .powerV0Claim raw
        pure ((StrTag.plain, e.1), n)
    | .other => throw .nonDeferred) entries
  pure (.mmap es)

/-- `transformVerifiedRegistryDataCaps` (HAMT, key passed through, the raw
deferred bytes assigned directly). -/
def transformVerifiedRegistryDataCaps (env : Env) (c : Cid) :
    Except Err MNode := do
  let entries ← env.hamtLoad c
  let es ← mapE (fun e => do
    match e.2 with
    | .deferred raw => pure ((StrTag.plain, e.1), MNode.mbytes .plain raw)
    | .other => throw .nonDeferred) entries
  pure (.mmap es)

/-- `transformMarketPendingProposals` (HAMT of MarketV0DealProposal, key
passed through). -/
def transformMarketPendingProposals (env : Env) (c : Cid) :
    Except Err MNode := do
  let entries ← env.hamtLoad c
  let es ← mapE (fun e => do
    match e.2 with
    | .deferred raw => do
        let n ← env.decode .marketV0DealProposal raw
        pure ((StrTag.plain, e.1), n)
    | .other => throw .nonDeferred) entries
  pure (.mmap es)

/-- `transformMarketProposals` (AMT of MarketV0DealProposal). -/
def transformMarketProposals (env : Env) (c : Cid) : Except Err MNode := do
  let entries ← env.amtLoad c
  let es ← mapE (fun e => do
    let n ← env.decode .marketV0DealProposal e.2
    pure ((StrTag.plain, intDec e.1), n)) entries
  pure (.mmap es)

/-- `transformMarketStates` (AMT of MarketV0DealState). -/
def transformMarketStates (env : Env) (c : Cid) : Except Err MNode := do
  let entries ← env.amtLoad c
  let es ← mapE (fun e => do
    let n ← env.decode .marketV0DealState e.2
    pure ((StrTag.plain, intDec e.1), n)) entries
  pure (.mmap es)

/-- `transformMarketBalanceTable` (HAMT, key passed through, raw bytes
assigned directly). -/
def transformMarketBalanceTable (env : Env) (c : Cid) : Except Err MNode := do
  let entries ← env.hamtLoad c
  let es ← mapE (fun e => do
    match e.2 with
    | .deferred raw => pure ((StrTag.plain, e.1), MNode.mbytes .plain raw)
    | .other => throw .nonDeferred) entries
  pure (.mmap es)

/-- `transformMarketDealOpsByEpoch` (both files, byte-identical): outer
`adt.Map` of `CborCid` values; each value opened as an `adt.Set`; outer key
re-rendered as the decimal big-endian reinterpretation.  The result of the
inner `set.ForEach(...)` is *discarded* by the source, so a failing
`abi.ParseUIntKey` silently truncates the inner list to the prefix before
it and the list assembler is finished anyway. -/
def transformMarketDealOpsByEpoch (env : Env) (c : Cid) :
    Except Err MNode := do
  let table ← env.mapLoad c
  let es ← mapE (fun e => do
    let elems ← env.setLoad e.2
    let vals := takeOkInit (elems.map (fun d =>
      (env.parseUIntKey d).map (fun k => MNode.mint (Int.ofNat k))))
    pure ((StrTag.plain, natDec (fromBytesBE e.1)), MNode.mlist vals)) table
  pure (.mmap es)

/-- `transformMultisigPending` (HAMT of MultisigV0Transaction, key
re-rendered as the decimal big-endian reinterpretation). -/
def transformMultisigPending (env : Env) (c : Cid) : Except Err MNode := do
  let entries ← env.hamtLoad c
  let es ← mapE (fun e => do
    match e.2 with
    | .deferred raw => do
        let n ← env.decode .multisigV0Transaction raw
        pure ((StrTag.plain, natDec (fromBytesBE e.1)), n)
    | .other => throw .nonDeferred) entries
  pure (.mmap es)

/-- `transformPaymentChannelLaneStates` (AMT of PaychV0LaneState). -/
def transformPaymentChannelLaneStates (env : Env) (c : Cid) :
    Except Err MNode := do
  let entries ← env.amtLoad c
  let es ← mapE (fun e => do
    let n ← env.decode .paychV0LaneState e.2
    pure ((StrTag.plain, intDec e.1), n)) entries
  pure (.mmap es)

/-- part_002 `transformStateRoot`: unlike part_003's, the result of
`node.ForEach(...)` is *discarded*, so an entry error stops the iteration
but is not propagated; `mapper.Finish()` and `assembler.Build()` still run.
The entries successfully assembled before the failure are the ones
delivered (the key of the failing entry, already assembled but without a
value, is abstracted away here). -/
def transformStateRootV2 (env : Env) (c : Cid) : Except Err MNode := do
  let entries ← env.hamtLoad c
  let es := takeOkInit (entries.map (fun e =>
    match e.2 with
    | .deferred raw =>
        (env.decode .lotusActors raw).map (fun n => ((StrTag.plain, e.1), n))
    | .other => .error .nonDeferred))
  pure (.mmap es)

/-- part_002 `transformInitActor`: same discarded `ForEach` result as
`transformStateRootV2`. -/
def transformInitActorV2 (env : Env) (c : Cid) : Except Err MNode := do
  let entries ← env.hamtLoad c
  let es := takeOkInit (entries.map (fun e =>
    match e.2 with
    | .deferred raw =>
        (env.decodeInt raw).map (fun i => ((StrTag.plain, e.1), MNode.mint i))
    | .other => .error .nonDeferred))
  pure (.mmap es)

/-! ## Prototype/decoder registry and top-level Transform (part_003) -/

/-- The distinct `types.Type.X__Repr` node prototypes appearing in
`LotusPrototypes`.  Several type keys share one prototype (identity is the
dispatch key of `complexLoaders`). -/
inductive Prototype where
  | lotusBlockHeader
  | accountV0State
  | cronV0State
  | initV0State
  | marketV0State
  | multisigV0State
  | minerV0State
  | minerV0Info
  | minerV0VestingFunds
  | bitField
  | minerV0Deadlines
  | minerV0Deadline
  | powerV0State
  | rewardV0State
  | verifregV0State
  | paychV0State
  | mapLotusActors
  | mapActorID
  | mapSectorPreCommitOnChainInfo
  | mapBitField
  | mapSectorOnChainInfo
  | mapMinerV0Partition
  | mapMinerV0ExpirationSet
  | mapPowerV0CronEvent
  | mapPowerV0Claim
  | mapDataCap
  | mapMarketV0DealProposal
  | mapMarketV0RawDealProposal
  | mapMarketV0DealState
  | mapBalanceTable
  | mapListDealID
  | mapMultisigV0Transaction
  | mapPaychV0LaneState
deriving DecidableEq, Repr

/-- `LotusPrototypes`: TypeKey → NodePrototype (part_003 lines 98–137). -/
def lotusPrototypes (t : String) : Option Prototype :=
  if t = "tipset" then some .lotusBlockHeader
  else if t = "accountActor" then some .accountV0State
  else if t = "cronActor" then some .cronV0State
  else if t = "initActor" then some .initV0State
  else if t = "storageMarketActor" then some .marketV0State
  else if t = "multisigActor" then some .multisigV0State
  else if t = "storageMinerActor" then some .minerV0State
  else if t = "storageMinerActor.Info" then some .minerV0Info
  else if t = "storageMinerActor.VestingFunds" then some .minerV0VestingFunds
  else if t = "storageMinerActor.AllocatedSectors" then some .bitField
  else if t = "storageMinerActor.Deadlines" then some .minerV0Deadlines
  else if t = "storageMinerActor.Deadlines.Due" then some .minerV0Deadline
  else if t = "storagePowerActor" then some .powerV0State
  else if t = "rewardActor" then some .rewardV0State
  else if t = "verifiedRegistryActor" then some .verifregV0State
  else if t = "paymentChannelActor" then some .paychV0State
  else if t = "stateRoot" then some .mapLotusActors
  else if t = "initActorAddresses" then some .mapActorID
  else if t = "storageMinerActor.PreCommittedSectors" then
    some .mapSectorPreCommitOnChainInfo
  else if t = "storageMinerActor.Deadlines.Due.Partitions.EarlyTerminated" then
    some .mapBitField
  else if t = "storageMinerActor.PreCommittedSectorsExpiry" then
    some .mapBitField
  else if t = "storageMinerActor.Sectors" then some .mapSectorOnChainInfo
  else if t = "storageMinerActor.Deadlines.Due.Partitions" then
    some .mapMinerV0Partition
  else if t = "storageMinerActor.Deadlines.Due.Partitions.ExpirationsEpochs" then
    some .mapMinerV0ExpirationSet
  else if t = "storageMinerActor.Deadlines.Due.ExpirationsEpochs" then
    some .mapBitField
  else if t = "storagePowerCronEventQueue" then some .mapPowerV0CronEvent
  else if t = "storagePowerClaims" then some .mapPowerV0Claim
  else if t = "verifiedRegistryActor.Verifiers" then some .mapDataCap
  else if t = "verifiedRegistryActor.VerifiedClients" then some .mapDataCap
  else if t = "storageMarketActor.PendingProposals" then
    some .mapMarketV0DealProposal
  else if t = "storageMarketActor.Proposals" then
    some .mapMarketV0RawDealProposal
  else if t = "storageMarketActor.States" then some .mapMarketV0DealState
  else if t = "storageMarketActor.EscrowTable" then some .mapBalanceTable
  else if t = "storageMarketActor.LockedTable" then some .mapBalanceTable
  else if t = "storageMarketActor.DealOpsByEpoch" then some .mapListDealID
  else if t = "multisigActor.PendingTxns" then some .mapMultisigV0Transaction
  else if t = "paymentChannelActor.LaneStates" then some .mapPaychV0LaneState
  else none

/-- `complexLoaders`: NodePrototype identity → structure decoder (part_003
lines 141–159).  Note the source pairs `Map__MarketV0DealProposal__Repr`
with `transformMarketProposals` and `Map__MarketV0RawDealProposal__Repr`
with `transformMarketPendingProposals` — the reverse of how
`LotusPrototypes` pairs those prototypes with the Proposals and
PendingProposals type keys. -/
def complexLoaders (p : Prototype) : Option (Env → Cid → Except Err MNode) :=
  match p with
  | .mapLotusActors => some transformStateRoot
  | .mapActorID => some transformInitActor
  | .mapSectorPreCommitOnChainInfo => some transformMinerActorPreCommittedSectors
  | .mapBitField => some transformMinerActorBitfieldHamt
  | .mapSectorOnChainInfo => some transformMinerActorSectors
  | .mapMinerV0Partition => some transformMinerActorDeadlinePartitions
  | .mapMinerV0ExpirationSet => some transformMinerActorDeadlinePartitionExpiry
  | .mapPowerV0CronEvent => some transformPowerActorEventQueue
  | .mapPowerV0Claim => some transformPowerActorClaims
  | .mapDataCap => some transformVerifiedRegistryDataCaps
  | .mapMarketV0DealProposal => some transformMarketProposals
  | .mapMarketV0RawDealProposal => some transformMarketPendingProposals
  | .mapMarketV0DealState => some transformMarketStates
  | .mapBalanceTable => some transformMarketBalanceTable
  | .mapListDealID => some transformMarketDealOpsByEpoch
  | .mapMultisigV0Transaction => some transformMultisigPending
  | .mapPaychV0LaneState => some transformPaymentChannelLaneStates
  | _ => none

/-- `Load(ctx, c, store, into)` (part_003 lines 174–190): if the target
assembler's prototype has a registered structure decoder, invoke it;
otherwise fetch the block and decode it as a flat CBOR document directly
into the assembler.  `env.decodeFlat` below stands for `dagcbor.Decoder`
into a builder of the given top-level prototype. -/
def Load (decodeFlat : Prototype → Bytes → Except Err MNode)
    (env : Env) (c : Cid) (proto : Prototype) : Except Err MNode :=
  match complexLoaders proto with
  | some loader => loader env c
  | none => do
      let data ← env.store c
      decodeFlat proto data

/-- part_003 `Transform`, factored through the resolved type key: prototype
lookup, fresh builder, `Load`, build on success. -/
def TransformD (decodeFlat : Prototype → Bytes → Except Err MNode)
    (env : Env) (c : Cid) (as : String) (t : String) : Except Err MNode :=
  match lotusPrototypes t with
  | none => .error (.unknownType as)
  | some proto => Load decodeFlat env c proto

/-- `Transform(ctx, c, store, as)` of part_003 (lines 193–203). -/
def Transform (decodeFlat : Prototype → Bytes → Except Err MNode)
    (env : Env) (c : Cid) (as : String) : Except Err MNode :=
  TransformD decodeFlat env c as (ResolveType as)

/-! ## The switch-based Transform (part_002) -/

/-- part_002 `Transform`, factored through the resolved type key: a first
switch dispatches the complex types to their own store-loading transforms;
otherwise the block is fetched and a second switch picks the flat prototype,
defaulting to the `unknown type` error. -/
def TransformV2D (decodeFlat : Prototype → Bytes → Except Err MNode)
    (env : Env) (c : Cid) (as : String) (t : String) : Except Err MNode :=
  if t = "stateRoot" then transformStateRootV2 env c
  else if t = "initActorAddresses" then transformInitActorV2 env c
  else if t = "storageMinerActor.PreCommittedSectors" then
    transformMinerActorPreCommittedSectors env c
  else if t = "storageMinerActor.Deadlines.Due.Partitions.EarlyTerminated" then
    transformMinerActorBitfieldHamt env c
  else if t = "storageMinerActor.PreCommittedSectorsExpiry" then
    transformMinerActorBitfieldHamt env c
  else if t = "storageMinerActor.Sectors" then
    transformMinerActorSectors env c
  else if t = "storageMinerActor.Deadlines.Due.Partitions" then
    transformMinerActorDeadlinePartitions env c
  else if t = "storageMinerActor.Deadlines.Due.Partitions.ExpirationsEpochs" then
    transformMinerActorDeadlinePartitionExpiry env c
  else if t = "storageMinerActor.Deadlines.Due.ExpirationsEpochs" then
    transformMinerActorBitfieldHamt env c
  else if t = "storagePowerCronEventQueue" then
    transformPowerActorEventQueue env c
  else if t = "storagePowerClaims" then transformPowerActorClaims env c
  else if t = "storageMarketActor.Proposals" then
    transformMarketProposals env c
  else if t = "storageMarketActor.States" then transformMarketStates env c
  else if t = "storageMarketActor.PendingProposals" then
    transformMarketPendingProposals env c
  else if t = "storageMarketActor.EscrowTable" then
    transformMarketBalanceTable env c
  else if t = "storageMarketActor.LockedTable" then
    transformMarketBalanceTable env c
  else if t = "storageMarketActor.DealOpsByEpoch" then
    transformMarketDealOpsByEpoch env c
  else if t = "multisigActor.PendingTxns" then transformMultisigPending env c
  else if t = "verifiedRegistryActor.Verifiers" then
    transformVerifiedRegistryDataCaps env c
  else if t = "verifiedRegistryActor.VerifiedClients" then
    transformVerifiedRegistryDataCaps env c
  else if t = "paymentChannelActor.LaneStates" then
    transformPaymentChannelLaneStates env c
  else do
    let data ← env.store c
    if t = "tipset" then decodeFlat .lotusBlockHeader data
    else if t = "accountActor" then decodeFlat .accountV0State data
    else if t = "cronActor" then decodeFlat .cronV0State data
    else if t = "initActor" then decodeFlat .initV0State data
    else if t = "storageMarketActor" then decodeFlat .marketV0State data
    else if t = "multisigActor" then decodeFlat .multisigV0State data
    else if t = "storageMinerActor" then decodeFlat .minerV0State data
    else if t = "storageMinerActor.Info" then decodeFlat .minerV0Info data
    else if t = "storageMinerActor.VestingFunds" then
      decodeFlat .minerV0VestingFunds data
    else if t = "storageMinerActor.AllocatedSectors" then
      decodeFlat .bitField data
    else if t = "storageMinerActor.Deadlines" then
      decodeFlat .minerV0Deadlines data
    else if t = "storageMinerActor.Deadlines.Due" then
      decodeFlat .minerV0Deadline data
    else if t = "storagePowerActor" then decodeFlat .powerV0State data
    else if t = "rewardActor" then decodeFlat .rewardV0State data
    else if t = "verifiedRegistryActor" then decodeFlat .verifregV0State data
    else if t = "paymentChannelActor" then decodeFlat .paychV0State data
    else .error (.unknownType as)

/-- `Transform(ctx, c, store, as)` of part_002 (lines 107–204). -/
def TransformV2 (decodeFlat : Prototype → Bytes → Except Err MNode)
    (env : Env) (c : Cid) (as : String) : Except Err MNode :=
  TransformV2D decodeFlat env c as (ResolveTypeV2 as)

/-! ## Streaming marshaler (`codec/fcjson/marshal.go`)

The token sink is modelled as the produced token list (`sink.Step` always
accepts); a sink failure aborts the walk in the source and is out of these
claims' scope.  Link inlining recurses on loader-produced nodes, which the
source does without any cycle guard; a structural `fuel` parameter (spent
only on link inlining) makes the model total, with `Err.fuelOut` marking
walks the source would not finish. -/

/-- Output tokens (`tok.Token`). -/
inductive Token where
  | mapOpen (len : Nat)
  | mapClose
  | arrOpen (len : Nat)
  | arrClose
  | tstr (s : GoStr)
  | tint (i : Int)
  | tfloat (bits : Nat)
  | tbool (b : Bool)
  | tnull
deriving DecidableEq, Repr

/-- `encoding/hex.EncodeToString`: two lowercase hex digits per byte. -/
def hexDigit (n : Nat) : Nat := if n < 10 then 48 + n else 87 + n

def hexEncode (b : Bytes) : GoStr :=
  b.flatMap (fun x => [hexDigit (x / 16), hexDigit (x % 16)])

/-- Inverse of `hexDigit` on its range. -/
def unhexDigit (c : Nat) : Option Nat :=
  if 48 ≤ c ∧ c ≤ 57 then some (c - 48)
  else if 97 ≤ c ∧ c ≤ 102 then some (c - 87)
  else none

def hexDecode : GoStr → Option Bytes
  | [] => some []
  | [_] => none
  | h :: l :: rest => do
    let hi ← unhexDigit h
    let lo ← unhexDigit l
    let bs ← hexDecode rest
    pure ((hi * 16 + lo) :: bs)

example : hexEncode [0, 2, 255] = gs "0002ff" := by decide
example : hexDecode (gs "0002ff") = some [0, 2, 255] := by decide

/-- `encoding/base64.StdEncoding.EncodeToString` (62 = `+`, 63 = `/`,
`=` padding). -/
def b64Char (n : Nat) : Nat :=
  if n < 26 then 65 + n
  else if n < 52 then 97 + (n - 26)
  else if n < 62 then 48 + (n - 52)
  else if n = 62 then 43
  else 47

def base64Std : Bytes → GoStr
  | [] => []
  | [a] => [b64Char (a / 4), b64Char (a % 4 * 16), 61, 61]
  | [a, b] => [b64Char (a / 4), b64Char (a % 4 * 16 + b / 16),
               b64Char (b % 16 * 4), 61]
  | a :: b :: c :: rest =>
      [b64Char (a / 4), b64Char (a % 4 * 16 + b / 16),
       b64Char (b % 16 * 4 + c / 64), b64Char (c % 64)] ++ base64Std rest

example : base64Std (gs "Man") = gs "TWFu" := by decide
example : base64Std (gs "Ma") = gs "TWE=" := by decide

/-- Opaque representation of a decoded `go-bitfield` value; only the
collaborator functions of `MEnv` interpret it. -/
abbrev BF := List Nat

/-- The marshaler's collaborators: CID text rendering, the go-address
renderer, binary CID parsing, and the go-bitfield codec. -/
structure MEnv where
  /-- `cid.Cid.String()`, the canonical textual form. -/
  cidStr : Cid → GoStr
  /-- `address.NewFromBytes(...)` followed by `.String()`. -/
  addrStr : Bytes → Except Err GoStr
  /-- `cid.Cid.UnmarshalBinary`. -/
  cidFromBinary : Bytes → Except Err Cid
  /-- `bitfield.NewFromBytes` (direct byte layout). -/
  bfFromBytes : Bytes → Except Err BF
  /-- `BitField.UnmarshalCBOR` (CBOR-wrapped fallback). -/
  bfFromCBOR : Bytes → Except Err BF
  /-- `BitField.MarshalCBOR` to a fresh buffer (canonical compacted form;
  its error return is ignored by the source). -/
  bfToCBOR : BF → Bytes

/-- `Loader` (`func(cid.Cid, ipld.Path) ipld.Node`, a nil result meaning
absent).  Paths are segment lists. -/
abbrev MLoader := Cid → List GoStr → Option MNode

/-- The string re-rendering shared by map keys (marshal.go 63–80) and
string-kinded nodes (145–164): `RawAddress` bytes become the canonical
address string, `CidString` bytes are parsed as a binary CID and rendered
canonically, anything else passes through. -/
def renderStr (menv : MEnv) (tag : StrTag) (s : GoStr) : Except Err GoStr :=
  match tag with
  | .plain => pure s
  | .rawAddress => menv.addrStr s
  | .cidString => do
      let c ← menv.cidFromBinary s
      pure (menv.cidStr c)

/-- The bitfield decode of marshal.go 186–191: try the direct byte layout,
and only on its failure the CBOR-wrapped fallback. -/
def decodeBitfield (menv : MEnv) (v : Bytes) : Except Err BF :=
  match menv.bfFromBytes v with
  | .ok b => .ok b
  | .error _ => menv.bfFromCBOR v

/-- The four tokens of an unresolved link (marshal.go 237–256). -/
def linkTokens (menv : MEnv) (c : Cid) : List Token :=
  [.mapOpen 1, .tstr (gs "/"), .tstr (menv.cidStr c), .mapClose]

/-- `DagMarshaler.MarshalRecursive`: dispatch on the representation kind and
emit tokens.  The recursion is made structural on a depth `fuel` (every
recursive call — map entry, list element, inlined link — spends one unit;
the source bounds none of them).  Mirroring the source: in the Map case the
recursion path is extended with the re-rendered key, but in the List case
the result of `next.Path.AppendSegment(...)` is discarded (marshal.go line
109), so list elements are visited with the *unextended* path. -/
def MarshalRecursive (menv : MEnv) (loader : Option MLoader) :
    Nat → List GoStr → MNode → Except Err (List Token)
  | 0, _, _ => throw .fuelOut
  | fuel + 1, path, n =>
    match n with
    | .minvalid => throw .absentNode
    | .mnull => pure [.tnull]
    | .mmap entries => do
        let inner ← mapE (fun e => do
          let k ← renderStr menv e.1.1 e.1.2
          let ts ← MarshalRecursive menv loader fuel (path ++ [k]) e.2
          pure (Token.tstr k :: ts)) entries
        pure (Token.mapOpen entries.length :: inner.flatten ++
          [Token.mapClose])
    | .mlist xs => do
        let inner ← mapE (fun x =>
          MarshalRecursive menv loader fuel path x) xs
        pure (Token.arrOpen xs.length :: inner.flatten ++ [Token.arrClose])
    | .mbool b => pure [.tbool b]
    | .mint i => pure [.tint i]
    | .mfloat f => pure [.tfloat f]
    | .mstr tag s => do
        let r ← renderStr menv tag s
        pure [.tstr r]
    | .mbytes tag v =>
        match tag with
        | .address => do
            let s ← menv.addrStr v
            pure [.tstr s]
        | .bigInt => pure [.tstr (natDec (fromBytesBE v))]
        | .bitField => do
            let b ← decodeBitfield menv v
            pure [.mapOpen 2, .tstr (gs "_type"), .tstr (gs "bitfield"),
                  .tstr (gs "bytes"),
                  .tstr (hexEncode (menv.bfToCBOR b)), .mapClose]
        | .plain => pure [.tstr (base64Std v)]
    | .mlink l =>
        match l with
        | .cidLink cl =>
            match loader with
            | some f =>
                match f cl path with
                | some node => MarshalRecursive menv loader fuel path node
                | none => pure (linkTokens menv cl)
            | none => pure (linkTokens menv cl)
        | .nonCid => throw .nonCidLink

/-! ## Supporting lemmas for the claims -/

/-- Keys of a successful `mapE` run: if every per-entry step computes its
key as `key a`, the produced association list carries exactly the source
keys, in source order. -/
theorem mapE_keys {α K V : Type} (f : α → Except Err (K × V)) (key : α → K)
    (l : List α) (r : List (K × V))
    (hk : ∀ a p, f a = .ok p → p.1 = key a)
    (h : mapE f l = .ok r) : r.map Prod.fst = l.map key := by
  induction l generalizing r with
  | nil =>
    rw [mapE] at h
    cases h
    rfl
  | cons a rest ih =>
    rw [mapE] at h
    cases hf : f a with
    | error e => simp [hf, Bind.bind, Except.bind] at h
    | ok p =>
      cases hr : mapE f rest with
      | error e => simp [hf, hr, Bind.bind, Except.bind] at h
      | ok ps =>
        simp only [hf, hr, Bind.bind, Except.bind, pure, Except.pure,
          Except.ok.injEq] at h
        subst h
        simp only [List.map_cons]
        rw [hk a p hf, ih ps hr]

/-- Hex round-trip on byte values. -/
theorem unhexDigit_hexDigit (n : Nat) (h : n < 16) :
    unhexDigit (hexDigit n) = some n := by
  unfold hexDigit unhexDigit
  by_cases h10 : n < 10
  · rw [if_pos h10, if_pos (by omega)]
    congr 1
    omega
  · rw [if_neg h10, if_neg (by omega), if_pos (by omega)]
    congr 1
    omega

theorem hexDecode_hexEncode (b : Bytes) (h : ∀ x ∈ b, x < 256) :
    hexDecode (hexEncode b) = some b := by
  induction b with
  | nil => rfl
  | cons x rest ih =>
    have hx : x < 256 := h x (List.mem_cons_self x rest)
    have hrest : ∀ y ∈ rest, y < 256 := fun y hy =>
      h y (List.mem_cons_of_mem x hy)
    have hmod : x / 16 * 16 + x % 16 = x := by omega
    have hr := ih hrest
    simp only [hexEncode] at hr
    simp only [hexEncode, List.flatMap_cons, List.cons_append,
      List.nil_append]
    simp only [hexDecode, unhexDigit_hexDigit _ (by omega : x / 16 < 16),
      unhexDigit_hexDigit _ (by omega : x % 16 < 16), hr, hmod,
      Option.bind_eq_bind, Option.some_bind]
    rfl

/-! ## Claims -/

/-- C1 counterexample: the claim "ResolveType(ResolveType(p)) equals
ResolveType(p) for every type-path string p" is false at p = "a.1.2.b":
the regex pass is leftmost non-overlapping, so one pass collapses only
".1." and leaves "a.2.b", which a second pass collapses further to "a.b". -/
theorem resolveType_not_idempotent_cex :
    ResolveType (ResolveType "a.1.2.b") ≠ ResolveType "a.1.2.b" ∧
    ResolveType "a.1.2.b" = "a.2.b" ∧
    ResolveType (ResolveType "a.1.2.b") = "a.b" := by
  refine ⟨?_, by decide, by decide⟩
  decide

/-- C1 (amended): ResolveType is idempotent on every type-path string whose
single normalization pass leaves no residual bracketed numeric index and no
residual delimiter-number-delimiter segment (leftmost non-overlapping
replacement can leave such residues when the patterns are adjacent or
nested, as in "a.1.2.b" or "[1[2]]"); on alias hits the substituted value
is itself a fixed point. -/
theorem resolveType_idempotent_of_no_residue (p : String)
    (h1 : hasBracketNum (normalizePath p).data = false)
    (h2 : hasDotNumDot (normalizePath p).data = false) :
    ResolveType (ResolveType p) = ResolveType p := by
  unfold ResolveType
  cases hl : lotusTypeAliases.lookup (normalizePath p) with
  | some v =>
    have h3 : aliasSubst lotusTypeAliases (normalizePath p) = v := by
      unfold aliasSubst
      rw [hl]
    rw [h3]
    exact aliasValues_fixed _ v hl
  | none =>
    have h3 : aliasSubst lotusTypeAliases (normalizePath p) =
        normalizePath p := by
      unfold aliasSubst
      rw [hl]
    rw [h3, normalizePath_fixed p h1 h2]
    exact h3

/-- Doc helper: witness environments and loaders shared by the claims. -/
def envErr : Env := {
  store := fun _ => .error (.external 99),
  hamtLoad := fun _ => .error (.external 99),
  amtLoad := fun _ => .error (.external 99),
  multimapLoad := fun _ => .error (.external 99),
  mapLoad := fun _ => .error (.external 99),
  setLoad := fun _ => .error (.external 99),
  decode := fun _ _ => .error (.external 99),
  decodeInt := fun _ => .error (.external 99),
  parseUIntKey := fun _ => .error (.external 99) }

def dfNull : Prototype → Bytes → Except Err MNode := fun _ _ => .ok .mnull

def menv0 : MEnv := {
  cidStr := fun c => natDec c,
  addrStr := fun _ => .ok (gs "addr"),
  cidFromBinary := fun _ => .error (.external 98),
  bfFromBytes := fun v => .ok v,
  bfFromCBOR := fun _ => .error (.external 98),
  bfToCBOR := fun b => b }

/-- C1 witness: a concrete index-bearing alias-hitting path satisfying the
amended hypotheses. -/
theorem resolveType_idempotent_witness :
    hasBracketNum
      (normalizePath "storageMinerActor.Deadlines.Due[0].ExpirationEpochs").data
      = false ∧
    hasDotNumDot
      (normalizePath "storageMinerActor.Deadlines.Due[0].ExpirationEpochs").data
      = false ∧
    ResolveType
        (ResolveType "storageMinerActor.Deadlines.Due[0].ExpirationEpochs") =
      ResolveType "storageMinerActor.Deadlines.Due[0].ExpirationEpochs" :=
  ⟨by decide, by decide,
    resolveType_idempotent_of_no_residue _ (by decide) (by decide)⟩

/-- An environment on which an inner set key fails `ParseUIntKey` and a
state-root HAMT entry fails its element decode. -/
def envSwallow : Env := {
  store := fun _ => .error (.external 99),
  hamtLoad := fun _ => .ok [(gs "a", .deferred [1]), (gs "b", .deferred [2])],
  amtLoad := fun _ => .error (.external 99),
  multimapLoad := fun _ => .error (.external 99),
  mapLoad := fun _ => .ok [(gs "k", 9)],
  setLoad := fun _ => .ok [gs "5", gs "x"],
  decode := fun _ raw =>
    if raw = [1] then .ok (.mint 1) else .error (.external 7),
  decodeInt := fun _ => .error (.external 99),
  parseUIntKey := fun d => if d = gs "5" then .ok 5 else .error (.external 8) }

/-- C2 refutation: the claim "every structure decoder returns the first
entry-level error without finishing its assembler, so no node is ever built
from a partially filled container" fails on the source.
`transformMarketDealOpsByEpoch` discards the result of `set.ForEach` (the
second inner key here fails `abi.ParseUIntKey` with error `external 8`, yet
the decoder finishes both assemblers and returns a node whose inner list
holds only the prefix before the failure), and part_002's
`transformStateRoot` discards the result of `node.ForEach` (the second
entry's element decode fails with `external 7`, yet a node holding only the
first entry is returned). -/
theorem dealOps_and_stateRootV2_swallow_errors :
    (envSwallow.parseUIntKey (gs "x") = .error (.external 8) ∧
     transformMarketDealOpsByEpoch envSwallow 0 =
       .ok (.mmap [((StrTag.plain, gs "107"), .mlist [.mint 5])])) ∧
    (envSwallow.decode .lotusActors [2] = .error (.external 7) ∧
     transformStateRootV2 envSwallow 0 =
       .ok (.mmap [((StrTag.plain, gs "a"), .mint 1)])) :=
  ⟨⟨rfl, rfl⟩, ⟨rfl, rfl⟩⟩

/-- C3: part_003 `Transform` returns the `unknown type` error and no node
when the resolved type key has no registered prototype; with a registered
prototype it delegates to `Load` on a fresh assembler, returning the node
on success and the error unwrapped on failure. -/
theorem transform_unknown_vs_registered
    (decodeFlat : Prototype → Bytes → Except Err MNode) (env : Env)
    (c : Cid) (as : String) :
    (lotusPrototypes (ResolveType as) = none →
      Transform decodeFlat env c as = .error (.unknownType as)) ∧
    (∀ p, lotusPrototypes (ResolveType as) = some p →
      Transform decodeFlat env c as = Load decodeFlat env c p ∧
      (∀ nd, Load decodeFlat env c p = .ok nd →
        Transform decodeFlat env c as = .ok nd) ∧
      (∀ e, Load decodeFlat env c p = .error e →
        Transform decodeFlat env c as = .error e)) := by
  constructor
  · intro h
    simp [Transform, TransformD, h]
  · intro p h
    refine ⟨by simp [Transform, TransformD, h], ?_, ?_⟩
    · intro nd hnd
      simp [Transform, TransformD, h, hnd]
    · intro e he
      simp [Transform, TransformD, h, he]

/-- C3 witness: `Transform(cid, store, "bogus.path")` errors and produces
no node; a registered key delegates to `Load`. -/
theorem transform_unknown_vs_registered_witness :
    Transform dfNull envErr 0 "bogus.path" =
      .error (.unknownType "bogus.path") ∧
    Transform dfNull envErr 0 "cronActor" =
      Load dfNull envErr 0 .cronV0State :=
  ⟨(transform_unknown_vs_registered dfNull envErr 0 "bogus.path").1
      (by decide),
   ((transform_unknown_vs_registered dfNull envErr 0 "cronActor").2
      .cronV0State (by decide)).1⟩

/-- C4: `Load` dispatches on the target assembler's prototype: a prototype
registered in `complexLoaders` gets exactly that structure decoder, invoked
with the environment (cid, blockstore) and assembler; an unregistered
prototype gets the block fetched from the store and flat-CBOR-decoded into
the assembler, with store and decode errors propagated unmodified. -/
theorem load_dispatch
    (decodeFlat : Prototype → Bytes → Except Err MNode) (env : Env)
    (c : Cid) (p : Prototype) :
    (∀ f, complexLoaders p = some f → Load decodeFlat env c p = f env c) ∧
    (complexLoaders p = none →
      Load decodeFlat env c p =
        (do
          let data ← env.store c
          decodeFlat p data) ∧
      (∀ e, env.store c = .error e → Load decodeFlat env c p = .error e) ∧
      (∀ data e, env.store c = .ok data → decodeFlat p data = .error e →
        Load decodeFlat env c p = .error e)) := by
  constructor
  · intro f h
    simp [Load, h]
  · intro h
    refine ⟨by simp [Load, h], ?_, ?_⟩
    · intro e he
      simp [Load, h, he, Bind.bind, Except.bind]
    · intro data e hd he
      simp [Load, h, hd, he, Bind.bind, Except.bind]

/-- C4 witness: the state-root prototype is routed to `transformStateRoot`;
an unregistered flat prototype goes through the store, whose error
propagates unmodified. -/
theorem load_dispatch_witness :
    Load dfNull envErr 0 .mapLotusActors = transformStateRoot envErr 0 ∧
    Load dfNull envErr 0 .cronV0State =
      (do
        let data ← envErr.store 0
        dfNull .cronV0State data) ∧
    Load dfNull envErr 0 .cronV0State = .error (.external 99) :=
  ⟨(load_dispatch dfNull envErr 0 .mapLotusActors).1 transformStateRoot rfl,
   ((load_dispatch dfNull envErr 0 .cronV0State).2 rfl).1,
   ((load_dispatch dfNull envErr 0 .cronV0State).2 rfl).2.1 (.external 99)
     rfl⟩

/-- C5: a CID link with no loader (or a loader answering absent) emits
exactly the four tokens MapOpen(1), String("/"), String(cid text),
MapClose, and succeeds; a non-CID link is an error. -/
theorem marshal_link_unresolved (menv : MEnv) (fuel : Nat)
    (path : List GoStr) (c : Cid) :
    linkTokens menv c =
      [.mapOpen 1, .tstr (gs "/"), .tstr (menv.cidStr c), .mapClose] ∧
    MarshalRecursive menv none (fuel + 1) path (.mlink (.cidLink c)) =
      .ok (linkTokens menv c) ∧
    (∀ f : MLoader, f c path = none →
      MarshalRecursive menv (some f) (fuel + 1) path (.mlink (.cidLink c)) =
        .ok (linkTokens menv c)) ∧
    (∀ loader : Option MLoader,
      MarshalRecursive menv loader (fuel + 1) path (.mlink .nonCid) =
        .error .nonCidLink) := by
  refine ⟨rfl, rfl, ?_, ?_⟩
  · intro f h
    simp [MarshalRecursive, h, pure, Except.pure]
  · intro loader
    cases loader <;> rfl

/-- C5 witness: a concrete absent-answering loader. -/
theorem marshal_link_unresolved_witness :
    MarshalRecursive menv0 (some (fun _ _ => none)) 1 []
        (.mlink (.cidLink 5)) =
      .ok (linkTokens menv0 5) :=
  (marshal_link_unresolved menv0 0 [] 5).2.2.1 (fun _ _ => none) rfl

/-- C6: when the loader resolves the link's CID to a node X, marshaling the
link node produces token for token the stream of marshaling X itself at the
same path with the same loader (one inlining step of recursion depth); in
particular no four-token link wrapper appears. -/
theorem marshal_link_inlines (menv : MEnv) (f : MLoader) (fuel : Nat)
    (path : List GoStr) (c : Cid) (X : MNode) (h : f c path = some X) :
    MarshalRecursive menv (some f) (fuel + 1) path (.mlink (.cidLink c)) =
      MarshalRecursive menv (some f) fuel path X := by
  simp [MarshalRecursive, h]

/-- C6 witness: a loader resolving CID 5 to an int node; the link's stream
is the node's stream. -/
theorem marshal_link_inlines_witness :
    MarshalRecursive menv0
        (some (fun c _ => if c = 5 then some (.mint 42) else none)) 2 []
        (.mlink (.cidLink 5)) =
      MarshalRecursive menv0
        (some (fun c _ => if c = 5 then some (.mint 42) else none)) 1 []
        (.mint 42) ∧
    MarshalRecursive menv0
        (some (fun c _ => if c = 5 then some (.mint 42) else none)) 2 []
        (.mlink (.cidLink 5)) = .ok [.tint 42] :=
  ⟨marshal_link_inlines menv0 _ 1 [] 5 (.mint 42) rfl, rfl⟩

/-- A loader that only answers at the empty (root) path. -/
def loaderRoot : MLoader := fun _ p => if p = [] then some (.mint 42) else none

/-- C7 refutation: the claim that the List case recurses "with the
accumulated traversal path extended by the segment for index i" fails on
the source: `next.Path.AppendSegment(...)`'s result is discarded
(marshal.go line 109), so the element is visited with the *unextended*
path.  With a loader answering only at the root path, a link inside a
one-element list still resolves (the path stayed `[]`), whereas under the
claimed behavior the inner path would be `["0"]` and the four-token wrapper
would be emitted.  The Map case, by contrast, does extend the path (the
link under key "k" is visited at path `["k"]`, the loader answers absent,
and the wrapper appears). -/
theorem marshal_list_path_not_extended :
    MarshalRecursive menv0 (some loaderRoot) 3 []
        (.mlist [.mlink (.cidLink 5)]) =
      .ok [.arrOpen 1, .tint 42, .arrClose] ∧
    MarshalRecursive menv0 (some loaderRoot) 3 []
        (.mmap [((StrTag.plain, gs "k"), .mlink (.cidLink 5))]) =
      .ok [.mapOpen 1, .tstr (gs "k"), .mapOpen 1, .tstr (gs "/"),
           .tstr (gs "5"), .mapClose, .mapClose] :=
  ⟨rfl, rfl⟩

/-- C8: a bytes node tagged bitfield is decoded accepting the direct byte
layout or, only on its failure, the CBOR-wrapped fallback; the emission is
the synthetic 2-entry map MapOpen(2), "_type", "bitfield", "bytes",
hex(canonical re-serialization), MapClose, regardless of which input
encoding was taken; and decoding the emitted hex as a compacted bitfield
recovers exactly the decoded bitfield (decode→encode→decode is a fixed
point, given the collaborator codec's round-trip on its canonical form). -/
theorem marshal_bitfield (menv : MEnv) (loader : Option MLoader)
    (fuel : Nat) (path : List GoStr) (v : Bytes) (b : BF) :
    (menv.bfFromBytes v = .ok b → decodeBitfield menv v = .ok b) ∧
    (∀ e, menv.bfFromBytes v = .error e →
      decodeBitfield menv v = menv.bfFromCBOR v) ∧
    (decodeBitfield menv v = .ok b →
      MarshalRecursive menv loader (fuel + 1) path (.mbytes .bitField v) =
        .ok [.mapOpen 2, .tstr (gs "_type"), .tstr (gs "bitfield"),
             .tstr (gs "bytes"), .tstr (hexEncode (menv.bfToCBOR b)),
             .mapClose]) ∧
    ((∀ x ∈ menv.bfToCBOR b, x < 256) →
      menv.bfFromCBOR (menv.bfToCBOR b) = .ok b →
      (hexDecode (hexEncode (menv.bfToCBOR b))).map menv.bfFromCBOR =
        some (.ok b)) := by
  refine ⟨?_, ?_, ?_, ?_⟩
  · intro h
    simp [decodeBitfield, h]
  · intro e h
    simp [decodeBitfield, h]
  · intro h
    simp [MarshalRecursive, h, Bind.bind, Except.bind, pure, Except.pure]
  · intro hb hrt
    rw [hexDecode_hexEncode _ hb]
    simp [hrt]

/-- Keys of a decoder of the shape `mapE g entries` finished into a map
node: if every per-entry step computes its key as `key a`, the produced
map's keys are exactly the per-entry keys, in native order. -/
theorem bind_mmap_keys {A : Type}
    (g : A → Except Err ((StrTag × GoStr) × MNode))
    (key : A → StrTag × GoStr) (entries : List A)
    (r : List ((StrTag × GoStr) × MNode))
    (hk : ∀ a p, g a = .ok p → p.1 = key a)
    (h : Except.bind (mapE g entries)
        (fun es => Except.ok (MNode.mmap es)) = .ok (.mmap r)) :
    r.map Prod.fst = entries.map key := by
  cases hm : mapE g entries with
  | error e => rw [hm] at h; exact absurd h (by simp [Except.bind])
  | ok es =>
    rw [hm] at h
    simp only [Except.bind, Except.ok.injEq, MNode.mmap.injEq] at h
    exact h ▸ mapE_keys g key entries es hk hm

/-- An environment whose bitfield codec is exercised through the
CBOR-wrapped fallback and satisfies the canonical round-trip. -/
def menvBF : MEnv := {
  cidStr := fun c => natDec c,
  addrStr := fun _ => .ok (gs "addr"),
  cidFromBinary := fun _ => .error (.external 98),
  bfFromBytes := fun _ => .error (.external 1),
  bfFromCBOR := fun bs => .ok bs,
  bfToCBOR := fun b => b }

/-- C8 witness: the bitfield with set bits {0,2,5} (opaque representation
`[0,2,5]`) arrives CBOR-wrapped, is emitted as the 2-entry map with the hex
of its canonical form, and decoding that hex recovers {0,2,5}. -/
theorem marshal_bitfield_witness :
    decodeBitfield menvBF [0, 2, 5] = .ok [0, 2, 5] ∧
    MarshalRecursive menvBF none 1 [] (.mbytes .bitField [0, 2, 5]) =
      .ok [.mapOpen 2, .tstr (gs "_type"), .tstr (gs "bitfield"),
           .tstr (gs "bytes"), .tstr (hexEncode [0, 2, 5]), .mapClose] ∧
    (hexDecode (hexEncode (menvBF.bfToCBOR [0, 2, 5]))).map menvBF.bfFromCBOR =
      some (.ok [0, 2, 5]) :=
  ⟨rfl,
   (marshal_bitfield menvBF none 0 [] [0, 2, 5] [0, 2, 5]).2.2.1 rfl,
   (marshal_bitfield menvBF none 0 [] [0, 2, 5] [0, 2, 5]).2.2.2
     (by decide) rfl⟩

/-- C9: exactly four decoder variants — multisig pending transactions,
miner pre-committed sectors, the power cron-event queue's outer level, and
market deal-ops-by-epoch — render every map key as the decimal string of
the big-endian unsigned reinterpretation of the structure's raw key bytes,
unconditionally; every other string-keyed map decoder (state root, init
actor addresses, power claims, verified-registry data caps, market pending
proposals, market balance tables) passes the structure's key through
unchanged.  (The remaining decoders iterate int64-indexed arrays and have
no string key.) -/
theorem decoder_key_rendering (env : Env) (c : Cid) :
    (∀ entries r, env.hamtLoad c = .ok entries →
      transformMultisigPending env c = .ok (.mmap r) →
      r.map Prod.fst =
        entries.map (fun e => (StrTag.plain, natDec (fromBytesBE e.1)))) ∧
    (∀ entries r, env.hamtLoad c = .ok entries →
      transformMinerActorPreCommittedSectors env c = .ok (.mmap r) →
      r.map Prod.fst =
        entries.map (fun e => (StrTag.plain, natDec (fromBytesBE e.1)))) ∧
    (∀ outer r, env.multimapLoad c = .ok outer →
      transformPowerActorEventQueue env c = .ok (.mmap r) →
      r.map Prod.fst =
        outer.map (fun e => (StrTag.plain, natDec (fromBytesBE e.1)))) ∧
    (∀ table r, env.mapLoad c = .ok table →
      transformMarketDealOpsByEpoch env c = .ok (.mmap r) →
      r.map Prod.fst =
        table.map (fun e => (StrTag.plain, natDec (fromBytesBE e.1)))) ∧
    (∀ entries r, env.hamtLoad c = .ok entries →
      transformStateRoot env c = .ok (.mmap r) →
      r.map Prod.fst = entries.map (fun e => (StrTag.plain, e.1))) ∧
    (∀ entries r, env.hamtLoad c = .ok entries →
      transformInitActor env c = .ok (.mmap r) →
      r.map Prod.fst = entries.map (fun e => (StrTag.plain, e.1))) ∧
    (∀ entries r, env.hamtLoad c = .ok entries →
      transformPowerActorClaims env c = .ok (.mmap r) →
      r.map Prod.fst = entries.map (fun e => (StrTag.plain, e.1))) ∧
    (∀ entries r, env.hamtLoad c = .ok entries →
      transformVerifiedRegistryDataCaps env c = .ok (.mmap r) →
      r.map Prod.fst = entries.map (fun e => (StrTag.plain, e.1))) ∧
    (∀ entries r, env.hamtLoad c = .ok entries →
      transformMarketPendingProposals env c = .ok (.mmap r) →
      r.map Prod.fst = entries.map (fun e => (StrTag.plain, e.1))) ∧
    (∀ entries r, env.hamtLoad c = .ok entries →
      transformMarketBalanceTable env c = .ok (.mmap r) →
      r.map Prod.fst = entries.map (fun e => (StrTag.plain, e.1))) := by
  refine ⟨?_, ?_, ?_, ?_, ?_, ?_, ?_, ?_, ?_, ?_⟩ <;>
    intro entries r hload h <;>
    (first
      | unfold transformMultisigPending at h
      | unfold transformMinerActorPreCommittedSectors at h
      | unfold transformPowerActorEventQueue at h
      | unfold transformMarketDealOpsByEpoch at h
      | unfold transformStateRoot at h
      | unfold transformInitActor at h
      | unfold transformPowerActorClaims at h
      | unfold transformVerifiedRegistryDataCaps at h
      | unfold transformMarketPendingProposals at h
      | unfold transformMarketBalanceTable at h) <;>
    rw [hload] at h <;>
    simp only [Bind.bind, Except.bind, pure, Except.pure] at h <;>
    refine bind_mmap_keys _ _ entries r ?_ h <;>
    intro a p hp <;>
    (first
      | (cases ha : a.2 with
         | other =>
             rw [ha] at hp
             simp [throw, throwThe, MonadExceptOf.throw] at hp
         | deferred raw =>
             rw [ha] at hp
             (try dsimp only at hp)
             first
               | (injection hp with hp'
                  rw [← hp'])
               | (split at hp
                  · exact Except.noConfusion hp
                  · injection hp with hp'
                    rw [← hp']))
      | (split at hp
         · exact Except.noConfusion hp
         · injection hp with hp'
           rw [← hp']))

/-- An environment with one entry in every sharded structure, for
exercising the key-rendering claims. -/
def envKeys : Env := {
  store := fun _ => .error (.external 99),
  hamtLoad := fun _ => .ok [([1, 2], .deferred [7])],
  amtLoad := fun _ => .ok [],
  multimapLoad := fun _ => .ok [([2], [(0, [9])])],
  mapLoad := fun _ => .ok [([1], 4)],
  setLoad := fun _ => .ok [gs "1"],
  decode := fun _ _ => .ok .mnull,
  decodeInt := fun _ => .ok 5,
  parseUIntKey := fun _ => .ok 1 }

/-- C9 witness: a raw HAMT key `[1,2]` renders as "258" (big-endian) in the
four re-rendering decoders and passes through unchanged in the others. -/
theorem decoder_key_rendering_witness :
    ([((StrTag.plain, gs "258"), MNode.mnull)].map Prod.fst =
      [(([1, 2] : GoStr), HamtVal.deferred [7])].map
        (fun e => (StrTag.plain, natDec (fromBytesBE e.1)))) ∧
    ([((StrTag.plain, gs "258"), MNode.mnull)].map Prod.fst =
      [(([1, 2] : GoStr), HamtVal.deferred [7])].map
        (fun e => (StrTag.plain, natDec (fromBytesBE e.1)))) ∧
    ([((StrTag.plain, gs "2"),
        MNode.mmap [((StrTag.plain, gs "0"), MNode.mnull)])].map Prod.fst =
      [(([2] : GoStr), [((0 : Int), ([9] : Bytes))])].map
        (fun e => (StrTag.plain, natDec (fromBytesBE e.1)))) ∧
    ([((StrTag.plain, gs "1"), MNode.mlist [MNode.mint 1])].map Prod.fst =
      [(([1] : GoStr), (4 : Cid))].map
        (fun e => (StrTag.plain, natDec (fromBytesBE e.1)))) ∧
    ([((StrTag.plain, ([1, 2] : GoStr)), MNode.mnull)].map Prod.fst =
      [(([1, 2] : GoStr), HamtVal.deferred [7])].map
        (fun e => (StrTag.plain, e.1))) ∧
    ([((StrTag.plain, ([1, 2] : GoStr)), MNode.mint 5)].map Prod.fst =
      [(([1, 2] : GoStr), HamtVal.deferred [7])].map
        (fun e => (StrTag.plain, e.1))) ∧
    ([((StrTag.plain, ([1, 2] : GoStr)), MNode.mnull)].map Prod.fst =
      [(([1, 2] : GoStr), HamtVal.deferred [7])].map
        (fun e => (StrTag.plain, e.1))) ∧
    ([((StrTag.plain, ([1, 2] : GoStr)), MNode.mbytes .plain [7])].map
        Prod.fst =
      [(([1, 2] : GoStr), HamtVal.deferred [7])].map
        (fun e => (StrTag.plain, e.1))) ∧
    ([((StrTag.plain, ([1, 2] : GoStr)), MNode.mnull)].map Prod.fst =
      [(([1, 2] : GoStr), HamtVal.deferred [7])].map
        (fun e => (StrTag.plain, e.1))) ∧
    ([((StrTag.plain, ([1, 2] : GoStr)), MNode.mbytes .plain [7])].map
        Prod.fst =
      [(([1, 2] : GoStr), HamtVal.deferred [7])].map
        (fun e => (StrTag.plain, e.1))) := by
  have h := decoder_key_rendering envKeys 0
  exact ⟨h.1 _ _ rfl rfl, h.2.1 _ _ rfl rfl, h.2.2.1 _ _ rfl rfl,
    h.2.2.2.1 _ _ rfl rfl, h.2.2.2.2.1 _ _ rfl rfl,
    h.2.2.2.2.2.1 _ _ rfl rfl, h.2.2.2.2.2.2.1 _ _ rfl rfl,
    h.2.2.2.2.2.2.2.1 _ _ rfl rfl, h.2.2.2.2.2.2.2.2.1 _ _ rfl rfl,
    h.2.2.2.2.2.2.2.2.2 _ _ rfl rfl⟩

/-- An environment holding an AMT-shaped market-proposals root: the AMT
loads fine, the HAMT loader fails. -/
def envProp : Env := { envErr with
  amtLoad := fun _ => .ok [(0, [1])],
  hamtLoad := fun _ => .error (.external 3),
  decode := fun t raw =>
    if t = .marketV0DealProposal ∧ raw = [1] then .ok (.mint 7)
    else .error (.external 4) }

/-- C10 counterexample: the two Transform implementations are not
observationally equivalent.  On the type key `storageMarketActor.Proposals`
the switch-based Transform (part_002) dispatches to the AMT-shaped
`transformMarketProposals` and succeeds, while the registry-based Transform
(part_003) routes the Proposals prototype through `complexLoaders` to the
HAMT-shaped `transformMarketPendingProposals` (the two market entries of
`complexLoaders` are swapped relative to `LotusPrototypes`) and fails. -/
theorem transform_versions_disagree_cex :
    TransformV2 dfNull envProp 0 "storageMarketActor.Proposals" =
      .ok (.mmap [((StrTag.plain, gs "0"), .mint 7)]) ∧
    Transform dfNull envProp 0 "storageMarketActor.Proposals" =
      .error (.external 3) :=
  ⟨rfl, rfl⟩

/-- The resolved type keys on which the two Transform implementations take
the same dispatch decision: every key of the shared registry except
`stateRoot` and `initActorAddresses` (part_002 discards the iteration error
there) and the two market proposal keys (part_003 swaps their decoders). -/
def sharedAgreedKeys : List String :=
  [ "storageMinerActor.PreCommittedSectors",
    "storageMinerActor.Deadlines.Due.Partitions.EarlyTerminated",
    "storageMinerActor.PreCommittedSectorsExpiry",
    "storageMinerActor.Sectors",
    "storageMinerActor.Deadlines.Due.Partitions",
    "storageMinerActor.Deadlines.Due.Partitions.ExpirationsEpochs",
    "storageMinerActor.Deadlines.Due.ExpirationsEpochs",
    "storagePowerCronEventQueue",
    "storagePowerClaims",
    "storageMarketActor.States",
    "storageMarketActor.EscrowTable",
    "storageMarketActor.LockedTable",
    "storageMarketActor.DealOpsByEpoch",
    "multisigActor.PendingTxns",
    "verifiedRegistryActor.Verifiers",
    "verifiedRegistryActor.VerifiedClients",
    "paymentChannelActor.LaneStates",
    "tipset", "accountActor", "cronActor", "initActor",
    "storageMarketActor", "multisigActor", "storageMinerActor",
    "storageMinerActor.Info", "storageMinerActor.VestingFunds",
    "storageMinerActor.AllocatedSectors", "storageMinerActor.Deadlines",
    "storageMinerActor.Deadlines.Due", "storagePowerActor", "rewardActor",
    "verifiedRegistryActor", "paymentChannelActor" ]

/-- C10 (amended): the switch-based and the registry-based Transform agree
— same result for every context, CID, block store and flat decoder — on
every resolved type key except `stateRoot` and `initActorAddresses` (where
only part_002 swallows entry-level iteration errors) and
`storageMarketActor.Proposals` / `storageMarketActor.PendingProposals`
(where part_003's `complexLoaders` pairs the two prototypes with the
swapped shape decoders); their resolvers additionally differ on `/`
separators and two aliases, which this dispatch-level statement
factors out. -/
theorem transform_versions_agree_on_shared_keys
    (decodeFlat : Prototype → Bytes → Except Err MNode) (env : Env)
    (c : Cid) (as t : String) (ht : t ∈ sharedAgreedKeys) :
    TransformV2D decodeFlat env c as t = TransformD decodeFlat env c as t := by
  fin_cases ht <;> rfl

/-- C10 witness: agreement at a flat key and at a complex key. -/
theorem transform_versions_agree_witness :
    TransformV2D dfNull envErr 0 "cronActor" "cronActor" =
      TransformD dfNull envErr 0 "cronActor" "cronActor" ∧
    TransformV2D dfNull envErr 0 "storagePowerClaims" "storagePowerClaims" =
      TransformD dfNull envErr 0 "storagePowerClaims" "storagePowerClaims" :=
  ⟨transform_versions_agree_on_shared_keys dfNull envErr 0 "cronActor"
      "cronActor" (by decide),
   transform_versions_agree_on_shared_keys dfNull envErr 0
      "storagePowerClaims" "storagePowerClaims" (by decide)⟩

end Statediff
